import Mathlib

/-!
Verification of the session lifecycle and tariff computation engine of a parking
management application (source: `src/app/page.tsx`).

Modelling conventions for the shallow embedding:
* Timestamps are integers counting whole minutes since an arbitrary epoch, so the
  date-fns helpers specialize to integer arithmetic: `differenceInMinutes(a, b)` is
  `a - b`, `isBefore(a, b)` is `a < b`, `isAfter(a, b)` is `b < a`.
* JS numbers stored in tariff tiers and amounts are modelled as `Int`.
* The calendar arithmetic of pass renewal (`addMonths`) is modelled on a structured
  calendar instant, since a calendar month is not a fixed number of minutes.
* For the plate normalizer, JS strings are modelled as lists of UTF-16 code units
  (natural numbers); the blank is code unit 32.
* The React state updates are modelled as pure state-passing functions returning
  `Except`; an alert that rejects the operation becomes an error value.
-/

namespace Parking

/-- Vehicle categories: the closed `VehicleType` union of the source (line 41). -/
inductive VehicleType
  | bike
  | car
  | truck
  | bus
deriving DecidableEq, Repr

/-- Tariff tier (`PricingRule`, lines 64-67): a duration threshold in hours and a
flat amount. -/
structure PricingRule where
  hours : Int
  amount : Int
deriving DecidableEq, Repr

/-- Session status (line 53): a two-state machine. -/
inductive SessionStatus
  | active
  | completed
deriving DecidableEq, Repr

/-- Parking session record (`ParkingSession`, lines 43-54).  The optional fields are
unset while the session is active. -/
structure ParkingSession where
  id : String
  vehicleNumber : String
  vehicleType : VehicleType
  entryTime : Int
  exitTime : Option Int := none
  amount : Option Int := none
  durationMinutes : Option Int := none
  isFree : Bool := false
  status : SessionStatus
deriving DecidableEq, Repr

/-- Membership pass record (`MembershipPass`, lines 56-62). -/
structure MembershipPass where
  id : String
  vehicleNumber : String
  vehicleType : VehicleType
  holderName : String
  expiryDate : Int
deriving DecidableEq, Repr

/-- Result record returned by `calculateBill`. -/
structure BillResult where
  amount : Int
  durationMinutes : Int
deriving DecidableEq, Repr

/-- Default pricing rules seeded in the component state (lines 90-95). -/
def defaultPricingRules : VehicleType → List PricingRule
  | .bike => [⟨1, 20⟩, ⟨12, 150⟩, ⟨24, 250⟩]
  | .car => [⟨1, 50⟩, ⟨12, 500⟩, ⟨24, 900⟩]
  | .truck => [⟨1, 100⟩, ⟨12, 1000⟩, ⟨24, 1800⟩]
  | .bus => [⟨1, 80⟩, ⟨12, 800⟩, ⟨24, 1500⟩]

/-- Elapsed-minute computation, date-fns `differenceInMinutes(laterT, earlierT)` at
whole-minute granularity: plain integer difference, possibly negative. -/
def minutesBetween (laterT earlierT : Int) : Int := laterT - earlierT

/-- Hour rounding `Math.ceil(totalMinutes / 60)` (line 371).  For an integer `m` the
real ceiling of `m / 60` equals the floor of `(m + 59) / 60`. -/
def ceilHours (m : Int) : Int := (m + 59).fdiv 60

/-- Semantics of the JS expression `x || d` where `x` is `o?.amount` (line 378):
both `undefined` and `0` are falsy and yield the default. -/
def jsOrDefault (o : Option Int) (d : Int) : Int :=
  match o with
  | some a => if a = 0 then d else a
  | none => d

/-- Stable insertion of a tier into a descending-sorted tier list: the inserted tier
passes over tiers with strictly larger thresholds and stops before the first tier
whose threshold is at most its own, so earlier tiers stay before later tiers of
equal threshold. -/
def insertDesc (x : PricingRule) : List PricingRule → List PricingRule
  | [] => [x]
  | y :: ys => if x.hours < y.hours then y :: insertDesc x ys else x :: y :: ys

/-- Descending stable sort by threshold hours, the comparator sort of line 370
(`sort((a, b) => b.hours - a.hours)`; the JS array sort is stable). -/
def sortDesc : List PricingRule → List PricingRule
  | [] => []
  | x :: xs => insertDesc x (sortDesc xs)

/-- Pricing engine `calculateBill` (lines 358-380).  An exempt session is billed 0
with the raw elapsed minutes; otherwise an elapsed time within the grace period is
billed 0; otherwise the tiers of the category are sorted descending by threshold
hours and the first tier whose threshold is at most the rounded-up hours is charged
flat; with no qualifying tier the fallback is hours times the 1-hour tier amount,
the literal 50 when that tier is missing or its amount is falsy. -/
def calculateBill (graceTimeMinutes : Nat) (pricingRules : VehicleType → List PricingRule)
    (session : ParkingSession) (exitTime : Int) : BillResult :=
  if session.isFree then
    { amount := 0, durationMinutes := minutesBetween exitTime session.entryTime }
  else
    let totalMinutes := minutesBetween exitTime session.entryTime
    if totalMinutes ≤ (graceTimeMinutes : Int) then
      { amount := 0, durationMinutes := totalMinutes }
    else
      let currentRules := pricingRules session.vehicleType
      let sortedRules := sortDesc currentRules
      let totalHours := ceilHours totalMinutes
      match sortedRules.find? (fun rule => decide (rule.hours ≤ totalHours)) with
      | some rule => { amount := rule.amount, durationMinutes := totalMinutes }
      | none =>
          let baseHourRate :=
            jsOrDefault ((currentRules.find? (fun r => r.hours == 1)).map (·.amount)) 50
          { amount := totalHours * baseHourRate, durationMinutes := totalMinutes }

/-- Specification-side restatement of the tier selection rule of claim C1, written
from the words of the specification: sort the tiers descending by threshold, charge
the first tier whose threshold is at most the billed hours as a flat rate, otherwise
fall back to billed hours times the amount of the tier with threshold 1, with the
configured baseline 50 when that tier is absent. -/
def specTierAmount (rules : List PricingRule) (billedHours : Int) : Int :=
  match (sortDesc rules).find? (fun r => decide (r.hours ≤ billedHours)) with
  | some r => r.amount
  | none =>
      billedHours *
        (match rules.find? (fun r => r.hours == 1) with
         | some r => r.amount
         | none => 50)

/-- Rejection outcomes of the entry form handler.  `emptyVehicleNumber` models the
silent early return on an empty plate (line 230); the other two are the alerts of
lines 242 and 250. -/
inductive EntryError
  | emptyVehicleNumber
  | duplicateActiveSession
  | membershipExpired
deriving DecidableEq, Repr

/-- Entry admission (`handleEntry`, lines 228-289) as a pure state transition:
duplicate-active check first, then the membership gate (`isBefore(expiry, now)`
decides expiry), then the new active session is prepended.  `newId` stands for the
generated token id and `now` for the current instant; a pass on file forces
`isFree = true` regardless of the operator flag (line 261). -/
def handleEntry (sessions : List ParkingSession) (passes : List MembershipPass)
    (vehicleNumber : String) (vehicleType : VehicleType) (isFreeReq : Bool)
    (newId : String) (now : Int) : Except EntryError (List ParkingSession) :=
  if vehicleNumber = "" then .error .emptyVehicleNumber
  else
    match sessions.find? (fun s => s.vehicleNumber == vehicleNumber && s.status == .active) with
    | some _ => .error .duplicateActiveSession
    | none =>
        match passes.find? (fun p => p.vehicleNumber == vehicleNumber) with
        | some pass =>
            if pass.expiryDate < now then .error .membershipExpired
            else
              .ok ({ id := newId, vehicleNumber := vehicleNumber, vehicleType := vehicleType,
                     entryTime := now, isFree := true, status := .active } :: sessions)
        | none =>
            .ok ({ id := newId, vehicleNumber := vehicleNumber, vehicleType := vehicleType,
                   entryTime := now, isFree := isFreeReq, status := .active } :: sessions)

/-- Outcomes of the exit handler.  The code has a single rejection path, the alert
reading "Active session not found" (line 385), taken both when no session matches
and when the matched session is already completed; it is modelled as
`noActiveSession`.  The specification postulates a distinct `alreadyCompleted`
outcome for a second close; the code never produces it. -/
inductive ExitError
  | noActiveSession
  | alreadyCompleted
deriving DecidableEq, Repr

/-- Exit settlement (`handleExit`, lines 382-426): the first session matching by id
or by plate is looked up; when absent or already completed the call is rejected;
otherwise the bill is computed by `calculateBill` at `now` and every session with
the matched id is marked completed with the result fields. -/
def handleExit (graceTimeMinutes : Nat) (pricingRules : VehicleType → List PricingRule)
    (sessions : List ParkingSession) (idToExit : String) (now : Int) :
    Except ExitError (List ParkingSession) :=
  match sessions.find? (fun s => s.id == idToExit || s.vehicleNumber == idToExit) with
  | none => .error .noActiveSession
  | some session =>
      if session.status = .completed then .error .noActiveSession
      else
        let bill := calculateBill graceTimeMinutes pricingRules session now
        .ok (sessions.map (fun s =>
          if s.id = session.id then
            { s with exitTime := some now, amount := some bill.amount,
                     durationMinutes := some bill.durationMinutes, status := .completed }
          else s))

/-- Invariant of claim C4: no two sessions in the list are both active for the same
plate. -/
def atMostOneActive (sessions : List ParkingSession) : Prop :=
  sessions.Pairwise (fun a b =>
    a.status = .active → b.status = .active → a.vehicleNumber ≠ b.vehicleNumber)

instance (sessions : List ParkingSession) : Decidable (atMostOneActive sessions) := by
  unfold atMostOneActive
  exact List.instDecidablePairwise _

/-- Concrete active session used by the concrete runs of claims C4 and C7. -/
def sessionC4 : ParkingSession :=
  { id := "PK-AA0007", vehicleNumber := "TN 07 AB 1234", vehicleType := .car,
    entryTime := 0, isFree := false, status := .active }

/-- The session `sessionC4` after settlement at minute 30 with grace 15 and the
default car tiers: 30 minutes round up to 1 hour, the 1-hour tier bills 50 flat. -/
def sessionC4closed : ParkingSession :=
  { id := "PK-AA0007", vehicleNumber := "TN 07 AB 1234", vehicleType := .car,
    entryTime := 0, exitTime := some 30, amount := some 50,
    durationMinutes := some 30, isFree := false, status := .completed }

/-- Concrete pass expiring exactly at minute 1000, for the boundary run of claim C3. -/
def passC3 : MembershipPass :=
  { id := "MS-0001", vehicleNumber := "TN 20 AB 1234", vehicleType := .car,
    holderName := "HOLDER", expiryDate := 1000 }

/-- The session admitted at the expiry instant of `passC3`. -/
def sessionC3 : ParkingSession :=
  { id := "PK-AA0020", vehicleNumber := "TN 20 AB 1234", vehicleType := .car,
    entryTime := 1000, isFree := true, status := .active }

/-- Concrete pass already expired at minute 1000, for the rejection run of claim C3. -/
def passC3b : MembershipPass :=
  { id := "MS-0002", vehicleNumber := "TN 21 AB 1234", vehicleType := .car,
    holderName := "HOLDER", expiryDate := 500 }

/-- Calendar instant for the pass renewal arithmetic: year, month (1 to 12), day and
minute of the day; the ordering is lexicographic. -/
structure DateTime where
  year : Int
  month : Int
  day : Int
  minuteOfDay : Int
deriving DecidableEq, Repr

/-- Strict lexicographic order on calendar instants. -/
def DateTime.lt (a b : DateTime) : Prop :=
  a.year < b.year ∨ (a.year = b.year ∧ (a.month < b.month ∨ (a.month = b.month ∧
    (a.day < b.day ∨ (a.day = b.day ∧ a.minuteOfDay < b.minuteOfDay)))))

instance (a b : DateTime) : Decidable (DateTime.lt a b) := by
  unfold DateTime.lt
  exact inferInstance

/-- Gregorian leap-year rule. -/
def isLeapYear (y : Int) : Bool := (y % 4 == 0 && y % 100 != 0) || y % 400 == 0

/-- Number of days in a month of a given year. -/
def daysInMonth (y m : Int) : Int :=
  if m = 2 then (if isLeapYear y then 29 else 28)
  else if m = 4 ∨ m = 6 ∨ m = 9 ∨ m = 11 then 30 else 31

/-- Calendar-month step of date-fns `addMonths(d, 1)`: the month advances by one,
carrying into the year, the day is clamped to the length of the target month, and
the time of day is preserved. -/
def addOneMonth (d : DateTime) : DateTime :=
  if d.month + 1 > 12 then
    { year := d.year + 1, month := d.month + 1 - 12,
      day := min d.day (daysInMonth (d.year + 1) (d.month + 1 - 12)),
      minuteOfDay := d.minuteOfDay }
  else
    { year := d.year, month := d.month + 1,
      day := min d.day (daysInMonth d.year (d.month + 1)),
      minuteOfDay := d.minuteOfDay }

/-- Expiry arithmetic of `rechargePass` (lines 337-339): `isAfter(currentExpiry, now)`
selects the stored expiry when it lies strictly after now, otherwise now, and one
calendar month is added to that base. -/
def rechargeExpiry (expiry now : DateTime) : DateTime :=
  addOneMonth (if DateTime.lt now expiry then expiry else now)

/-- Specification-side definition for claim C6: the later of the stored expiry and
now, the `max(pass.expiryDate, now)` of the specification. -/
def specMaxDate (a b : DateTime) : DateTime := if DateTime.lt a b then b else a

/-- Whitespace class of the JS regular expression `\s` over UTF-16 code units. -/
def isJsSpace (c : Nat) : Prop :=
  c = 9 ∨ c = 10 ∨ c = 11 ∨ c = 12 ∨ c = 13 ∨ c = 32 ∨ c = 160 ∨ c = 5760 ∨
  (8192 ≤ c ∧ c ≤ 8202) ∨ c = 8232 ∨ c = 8233 ∨ c = 8239 ∨ c = 8287 ∨
  c = 12288 ∨ c = 65279

instance (c : Nat) : Decidable (isJsSpace c) := by
  unfold isJsSpace
  exact inferInstance

/-- Uppercasing of a single code unit, `toUpperCase` on the ASCII letter range
relevant to plate strings. -/
def upCode (c : Nat) : Nat := if 97 ≤ c ∧ c ≤ 122 then c - 32 else c

/-- The cleaning pass of line 122: every whitespace code unit is removed, then the
rest is uppercased. -/
def cleanStr (s : List Nat) : List Nat :=
  (s.filter (fun c => decide (¬ isJsSpace c))).map upCode

/-- The groups pushed by lines 123-127: code units 0-1, 2-3, 4-5 and 6-9 of the
cleaned string, each group present only when the cleaned length exceeds its start. -/
def groupsOf (clean : List Nat) : List (List Nat) :=
  (if 0 < clean.length then [clean.take 2] else []) ++
  (if 2 < clean.length then [(clean.drop 2).take 2] else []) ++
  (if 4 < clean.length then [(clean.drop 4).take 2] else []) ++
  (if 6 < clean.length then [(clean.drop 6).take 4] else [])

/-- The `parts.join(" ")` of line 128: concatenation with a single blank (code unit
32) between consecutive groups. -/
def joinSp : List (List Nat) → List Nat
  | [] => []
  | [p] => p
  | p :: ps => p ++ 32 :: joinSp ps

/-- Grouping stage of the normalizer applied to an already cleaned string. -/
def formatClean (clean : List Nat) : List Nat := joinSp (groupsOf clean)

/-- Plate normalizer `formatVehicleNumber` (lines 121-129) over UTF-16 code units. -/
def formatVehicleNumber (s : List Nat) : List Nat := formatClean (cleanStr s)

/-- Helper: any positive number of elapsed minutes is billed at least one hour. -/
theorem one_le_ceilHours (m : Int) (h : 1 ≤ m) : 1 ≤ ceilHours m := by
  unfold ceilHours
  rw [Int.fdiv_eq_ediv _ (by decide : (0 : Int) ≤ 60)]
  rw [Int.le_ediv_iff_mul_le (by decide : (0 : Int) < 60)]
  omega

/-- Helper: membership is preserved by the stable insertion. -/
theorem mem_insertDesc (x a : PricingRule) (l : List PricingRule) :
    a ∈ insertDesc x l ↔ a = x ∨ a ∈ l := by
  induction l with
  | nil => simp [insertDesc]
  | cons y ys ih =>
    unfold insertDesc
    split
    all_goals simp only [List.mem_cons, ih]
    all_goals tauto

/-- Helper: the descending sort permutes the tier list, so membership is unchanged. -/
theorem mem_sortDesc (a : PricingRule) (l : List PricingRule) :
    a ∈ sortDesc l ↔ a ∈ l := by
  induction l with
  | nil => simp [sortDesc]
  | cons y ys ih => simp [sortDesc, mem_insertDesc, ih]

/-- Helper: in every branch of the pricing engine the reported duration is the raw
minute difference between exit and entry. -/
theorem calculateBill_durationMinutes (g : Nat) (r : VehicleType → List PricingRule)
    (session : ParkingSession) (exitT : Int) :
    (calculateBill g r session exitT).durationMinutes =
      minutesBetween exitT session.entryTime := by
  by_cases hfree : session.isFree
  · simp [calculateBill, hfree]
  · by_cases hg : minutesBetween exitT session.entryTime ≤ (g : Int)
    · simp [calculateBill, hfree, hg]
    · simp only [calculateBill, hfree, Bool.false_eq_true, if_false, if_neg hg]
      split <;> rfl

/-- C9: for every exempt session the computed amount is 0 regardless of the elapsed
time, and the billed minutes still equal the elapsed minutes between entry and exit. -/
theorem calculateBill_exempt_free (g : Nat) (r : VehicleType → List PricingRule)
    (session : ParkingSession) (exitT : Int) (hfree : session.isFree = true) :
    calculateBill g r session exitT =
      { amount := 0, durationMinutes := minutesBetween exitT session.entryTime } := by
  simp [calculateBill, hfree]

/-- Evaluation of `calculateBill_exempt_free` at a concrete exempt session parked for
720 minutes. -/
theorem calculateBill_exempt_free_app :
    calculateBill 15 defaultPricingRules
      { id := "PK-AA0001", vehicleNumber := "TN 01 AB 1234", vehicleType := .car,
        entryTime := 0, isFree := true, status := .active } 720 =
      { amount := 0, durationMinutes := 720 } :=
  calculateBill_exempt_free 15 defaultPricingRules _ 720 rfl

/-- C8: for every non-exempt session whose elapsed minutes are at most the grace
period (inclusive at the boundary), the computed amount is 0. -/
theorem calculateBill_grace_free (g : Nat) (r : VehicleType → List PricingRule)
    (session : ParkingSession) (exitT : Int) (hfree : session.isFree = false)
    (h : minutesBetween exitT session.entryTime ≤ (g : Int)) :
    calculateBill g r session exitT =
      { amount := 0, durationMinutes := minutesBetween exitT session.entryTime } := by
  simp [calculateBill, hfree, h]

/-- Evaluation of `calculateBill_grace_free` at a concrete session parked for exactly
the 15 grace minutes. -/
theorem calculateBill_grace_free_app :
    calculateBill 15 defaultPricingRules
      { id := "PK-AA0002", vehicleNumber := "TN 02 AB 1234", vehicleType := .car,
        entryTime := 0, isFree := false, status := .active } 15 =
      { amount := 0, durationMinutes := 15 } :=
  calculateBill_grace_free 15 defaultPricingRules _ 15 rfl (by decide)

/-- C5 (amended): the billed minutes always equal the raw `differenceInMinutes` with
no clamping at 0, and the computation never fails on a negative interval: when the
exit instant precedes the entry instant a non-exempt session falls under the grace
branch (the grace period being non-negative) and is billed 0. -/
theorem calculateBill_duration_unclamped (g : Nat) (r : VehicleType → List PricingRule)
    (session : ParkingSession) (exitT : Int) :
    (calculateBill g r session exitT).durationMinutes =
      minutesBetween exitT session.entryTime ∧
    (exitT < session.entryTime → (calculateBill g r session exitT).amount = 0) := by
  constructor
  · exact calculateBill_durationMinutes g r session exitT
  · intro hlt
    by_cases hfree : session.isFree
    · simp [calculateBill, hfree]
    · have hg : minutesBetween exitT session.entryTime ≤ (g : Int) := by
        unfold minutesBetween
        have := Int.natCast_nonneg g
        omega
      simp [calculateBill, hfree, hg]

/-- C5 counterexample: a session entered at minute 100 and exited at minute 40 yields
billed minutes -60, the raw difference rather than the claimed clamped value 0, and
the computation returns a successful bill of amount 0 instead of failing with an
invalid-interval error. -/
theorem calculateBill_negative_interval_example :
    calculateBill 15 defaultPricingRules
      { id := "PK-AA0003", vehicleNumber := "TN 03 AB 1234", vehicleType := .car,
        entryTime := 100, isFree := false, status := .active } 40 =
      { amount := 0, durationMinutes := -60 } ∧
    (calculateBill 15 defaultPricingRules
      { id := "PK-AA0003", vehicleNumber := "TN 03 AB 1234", vehicleType := .car,
        entryTime := 100, isFree := false, status := .active } 40).durationMinutes ≠
      max 0 (minutesBetween 40 100) := by
  constructor
  · decide
  · decide

/-- Evaluation of `calculateBill_duration_unclamped` at a concrete reversed interval. -/
theorem calculateBill_duration_unclamped_app :
    (calculateBill 15 defaultPricingRules
      { id := "PK-AA0004", vehicleNumber := "TN 04 AB 1234", vehicleType := .car,
        entryTime := 100, isFree := false, status := .active } 70).durationMinutes = -30 ∧
    (calculateBill 15 defaultPricingRules
      { id := "PK-AA0004", vehicleNumber := "TN 04 AB 1234", vehicleType := .car,
        entryTime := 100, isFree := false, status := .active } 70).amount = 0 :=
  ⟨(calculateBill_duration_unclamped 15 defaultPricingRules _ 70).1,
   (calculateBill_duration_unclamped 15 defaultPricingRules _ 70).2 (by decide)⟩

/-- C2 (amended): with an unknown category or an empty tariff table for the session
category the computation does not fail: past the grace period the tier search finds
nothing and the bill falls back to the rounded-up hours times the hardcoded default
hourly rate 50, so a price is produced; no tariff-not-configured failure exists in
the code. -/
theorem calculateBill_empty_rules_default (g : Nat) (r : VehicleType → List PricingRule)
    (session : ParkingSession) (exitT : Int) (hfree : session.isFree = false)
    (hg : (g : Int) < minutesBetween exitT session.entryTime)
    (hempty : r session.vehicleType = []) :
    calculateBill g r session exitT =
      { amount := ceilHours (minutesBetween exitT session.entryTime) * 50,
        durationMinutes := minutesBetween exitT session.entryTime } := by
  have hng : ¬ minutesBetween exitT session.entryTime ≤ (g : Int) := Int.not_le.mpr hg
  simp [calculateBill, hfree, hng, hempty, jsOrDefault, sortDesc]

/-- C2 counterexample: for a non-exempt two-hour stay with an empty tariff table the
engine produces the price 100 (two hours at the default rate 50) instead of failing. -/
theorem calculateBill_empty_rules_price_example :
    calculateBill 15 (fun _ => [])
      { id := "PK-AA0005", vehicleNumber := "TN 05 AB 1234", vehicleType := .car,
        entryTime := 0, isFree := false, status := .active } 120 =
      { amount := 100, durationMinutes := 120 } := by
  decide

/-- Evaluation of `calculateBill_empty_rules_default` at the concrete two-hour stay. -/
theorem calculateBill_empty_rules_default_app :
    calculateBill 15 (fun _ => [])
      { id := "PK-AA0006", vehicleNumber := "TN 06 AB 1234", vehicleType := .car,
        entryTime := 0, isFree := false, status := .active } 120 =
      { amount := ceilHours 120 * 50, durationMinutes := 120 } :=
  calculateBill_empty_rules_default 15 (fun _ => []) _ 120 rfl (by decide) rfl

/-- C1: for every non-exempt session past the grace period the bill follows the tier
rule stated by the specification (`specTierAmount`): hours round up, the tiers are
sorted descending by threshold, the first tier whose threshold is at most the billed
hours is charged flat, and with no qualifying tier the fallback is billed hours
times the 1-hour tier amount, baseline 50 when that tier is absent; in particular
720 elapsed minutes against the default car tiers bill 12 hours at the 12-hour tier
amount 500, not the fallback. -/
theorem calculateBill_tier_spec (g : Nat) (r : VehicleType → List PricingRule)
    (session : ParkingSession) (exitT : Int) (hfree : session.isFree = false)
    (hg : (g : Int) < minutesBetween exitT session.entryTime) :
    (calculateBill g r session exitT).amount =
      specTierAmount (r session.vehicleType)
        (ceilHours (minutesBetween exitT session.entryTime)) ∧
    (calculateBill g r session exitT).durationMinutes =
      minutesBetween exitT session.entryTime ∧
    ceilHours 720 = 12 ∧
    calculateBill 15 defaultPricingRules
      { id := "PK-AA0010", vehicleNumber := "TN 10 AB 1234", vehicleType := .car,
        entryTime := 0, isFree := false, status := .active } 720 =
      { amount := 500, durationMinutes := 720 } := by
  have hng : ¬ minutesBetween exitT session.entryTime ≤ (g : Int) := Int.not_le.mpr hg
  have hone : 1 ≤ ceilHours (minutesBetween exitT session.entryTime) := by
    refine one_le_ceilHours _ ?_
    have := Int.natCast_nonneg g
    omega
  refine ⟨?_, calculateBill_durationMinutes g r session exitT, by decide, by decide⟩
  simp only [calculateBill, hfree, Bool.false_eq_true, if_false, if_neg hng, specTierAmount]
  cases hfind : (sortDesc (r session.vehicleType)).find?
      (fun rule => decide (rule.hours ≤ ceilHours (minutesBetween exitT session.entryTime))) with
  | some rule => rfl
  | none =>
    have hnone : (r session.vehicleType).find? (fun q => q.hours == 1) = none := by
      rw [List.find?_eq_none]
      intro x hx
      have hx2 := List.find?_eq_none.mp hfind x ((mem_sortDesc x _).mpr hx)
      simp only [decide_eq_true_eq] at hx2
      simp only [beq_iff_eq]
      omega
    rw [hnone]
    simp [jsOrDefault]

/-- Evaluation of `calculateBill_tier_spec` at a concrete 90-minute stay. -/
theorem calculateBill_tier_spec_app :
    (calculateBill 15 defaultPricingRules
      { id := "PK-AA0011", vehicleNumber := "TN 11 AB 1234", vehicleType := .car,
        entryTime := 0, isFree := false, status := .active } 90).amount =
      specTierAmount (defaultPricingRules .car) (ceilHours 90) :=
  (calculateBill_tier_spec 15 defaultPricingRules _ 90 rfl (by decide)).1

/-- C3 (amended): membership gating at entry, with the boundary made non-strict: when
a pass is on file for the plate and no active session blocks it, the entry is
rejected with `MembershipExpired` exactly when the expiry lies strictly before the
entry instant; otherwise — including the entry instant equal to the expiry — the
vehicle is admitted with `isFree = true` even when the operator did not request
exemption. -/
theorem handleEntry_membership_gate (sessions : List ParkingSession)
    (passes : List MembershipPass) (v : String) (vt : VehicleType) (isFreeReq : Bool)
    (nid : String) (now : Int) (pass : MembershipPass) (hv : v ≠ "")
    (hnodup : sessions.find? (fun s => s.vehicleNumber == v && s.status == .active) = none)
    (hpass : passes.find? (fun p => p.vehicleNumber == v) = some pass) :
    (pass.expiryDate < now →
        handleEntry sessions passes v vt isFreeReq nid now = .error .membershipExpired) ∧
    (now ≤ pass.expiryDate →
        handleEntry sessions passes v vt isFreeReq nid now =
          .ok ({ id := nid, vehicleNumber := v, vehicleType := vt, entryTime := now,
                 isFree := true, status := .active } :: sessions)) := by
  constructor
  · intro h
    simp [handleEntry, hv, hnodup, hpass, h]
  · intro h
    have h2 : ¬ pass.expiryDate < now := Int.not_lt.mpr h
    simp [handleEntry, hv, hnodup, hpass, h2]

/-- C3 counterexample: a pass whose expiry equals the entry instant admits the
vehicle (with `isFree = true`) instead of rejecting it with `MembershipExpired`:
pass validity in the code is the non-strict `now ≤ expiry`, not the strict
`now < expiry` of the claim. -/
theorem handleEntry_expiry_instant_admits :
    handleEntry [] [passC3] "TN 20 AB 1234" .car false "PK-AA0020" 1000 =
      .ok [sessionC3] ∧
    handleEntry [] [passC3] "TN 20 AB 1234" .car false "PK-AA0020" 1000 ≠
      .error .membershipExpired := by
  have h1 : handleEntry [] [passC3] "TN 20 AB 1234" .car false "PK-AA0020" 1000 =
      .ok [sessionC3] := rfl
  refine ⟨h1, ?_⟩
  intro hcontra
  rw [h1] at hcontra
  exact Except.noConfusion hcontra

/-- Evaluation of `handleEntry_membership_gate` at a concretely expired pass. -/
theorem handleEntry_membership_gate_app :
    handleEntry [] [passC3b] "TN 21 AB 1234" .car false "PK-AA0021" 1000 =
      .error .membershipExpired :=
  (handleEntry_membership_gate [] [passC3b] "TN 21 AB 1234" .car false "PK-AA0021" 1000
      passC3b (by decide) rfl rfl).1 (by decide)

/-- Helper: prepending a fresh active session whose plate has no active session on
file preserves the invariant. -/
theorem atMostOneActive_cons_of_none (sessions : List ParkingSession)
    (ns : ParkingSession) (_hact : ns.status = .active)
    (hnone : ∀ x ∈ sessions, ¬(x.vehicleNumber = ns.vehicleNumber ∧ x.status = .active))
    (hinv : atMostOneActive sessions) : atMostOneActive (ns :: sessions) := by
  unfold atMostOneActive at hinv ⊢
  refine List.Pairwise.cons ?_ hinv
  intro b hb _ hbact heq
  exact hnone b hb ⟨heq.symm, hbact⟩

/-- Helper: a pointwise transformation that keeps plates and never turns a session
active preserves the invariant. -/
theorem atMostOneActive_map_close (sessions : List ParkingSession)
    (f : ParkingSession → ParkingSession)
    (hveh : ∀ x, (f x).vehicleNumber = x.vehicleNumber)
    (hstat : ∀ x, (f x).status = .active → x.status = .active)
    (hinv : atMostOneActive sessions) : atMostOneActive (sessions.map f) := by
  unfold atMostOneActive at hinv ⊢
  refine List.Pairwise.map f ?_ hinv
  intro a b hab h1 h2
  rw [hveh a, hveh b]
  exact hab (hstat a h1) (hstat b h2)

/-- C4: entries and exits protect the one-active-session-per-plate invariant: an
entry for a plate that already has an active session is rejected with
`DuplicateActiveSession`; successful entries and successful exits preserve the
invariant; and a concrete run shows that closing the active session frees the plate
for a new entry. -/
theorem one_active_session_invariant (g : Nat) (r : VehicleType → List PricingRule)
    (sessions : List ParkingSession) (passes : List MembershipPass) (v : String)
    (vt : VehicleType) (isFreeReq : Bool) (nid tid : String) (now : Int) :
    ((∃ s ∈ sessions, s.vehicleNumber = v ∧ s.status = .active) → v ≠ "" →
        handleEntry sessions passes v vt isFreeReq nid now =
          .error .duplicateActiveSession) ∧
    (atMostOneActive sessions → ∀ l',
        handleEntry sessions passes v vt isFreeReq nid now = .ok l' →
        atMostOneActive l') ∧
    (atMostOneActive sessions → ∀ l',
        handleExit g r sessions tid now = .ok l' → atMostOneActive l') ∧
    (handleEntry [] [] "TN 07 AB 1234" .car false "PK-AA0007" 0 = .ok [sessionC4] ∧
     handleEntry [sessionC4] [] "TN 07 AB 1234" .car false "PK-AA0008" 5 =
       .error .duplicateActiveSession ∧
     handleExit 15 defaultPricingRules [sessionC4] "TN 07 AB 1234" 30 =
       .ok [sessionC4closed] ∧
     handleEntry [sessionC4closed] [] "TN 07 AB 1234" .car false "PK-AA0008" 40 =
       .ok [{ id := "PK-AA0008", vehicleNumber := "TN 07 AB 1234", vehicleType := .car,
              entryTime := 40, isFree := false, status := .active }, sessionC4closed]) := by
  refine ⟨?_, ?_, ?_, rfl, rfl, rfl, rfl⟩
  · rintro ⟨s, hs, hsv, hst⟩ hvne
    unfold handleEntry
    rw [if_neg hvne]
    cases hfind : sessions.find? (fun s => s.vehicleNumber == v && s.status == .active) with
    | some t => rfl
    | none =>
      exfalso
      have hx := List.find?_eq_none.mp hfind s hs
      simp [hsv, hst] at hx
  · intro hinv l' h
    unfold handleEntry at h
    by_cases hvne : v = ""
    · rw [if_pos hvne] at h
      exact absurd h (by simp)
    · rw [if_neg hvne] at h
      cases hfind : sessions.find? (fun s => s.vehicleNumber == v && s.status == .active) with
      | some t =>
        simp only [hfind] at h
        exact absurd h (by simp)
      | none =>
        simp only [hfind] at h
        have hnone : ∀ x ∈ sessions, ¬(x.vehicleNumber = v ∧ x.status = .active) := by
          intro x hx hcon
          have hq := List.find?_eq_none.mp hfind x hx
          simp [hcon.1, hcon.2] at hq
        cases hfindp : passes.find? (fun p => p.vehicleNumber == v) with
        | some pass =>
          simp only [hfindp] at h
          by_cases hexp : pass.expiryDate < now
          · rw [if_pos hexp] at h
            exact absurd h (by simp)
          · rw [if_neg hexp] at h
            injection h with h
            subst h
            exact atMostOneActive_cons_of_none sessions _ rfl hnone hinv
        | none =>
          simp only [hfindp] at h
          injection h with h
          subst h
          exact atMostOneActive_cons_of_none sessions _ rfl hnone hinv
  · intro hinv l' h
    unfold handleExit at h
    cases hfind : sessions.find? (fun s => s.id == tid || s.vehicleNumber == tid) with
    | none =>
      simp only [hfind] at h
      exact absurd h (by simp)
    | some S =>
      simp only [hfind] at h
      by_cases hcomp : S.status = .completed
      · rw [if_pos hcomp] at h
        exact absurd h (by simp)
      · rw [if_neg hcomp] at h
        injection h with h
        subst h
        refine atMostOneActive_map_close sessions _ ?_ ?_ hinv
        · intro x
          by_cases hx : x.id = S.id <;> simp [hx]
        · intro x hxact
          by_cases hx : x.id = S.id
          · simp [hx] at hxact
          · simpa [hx] using hxact

/-- Evaluation of `one_active_session_invariant`: the duplicate rejection and the
exit preservation discharged at concrete states. -/
theorem one_active_session_invariant_app :
    handleEntry [sessionC4] [] "TN 07 AB 1234" VehicleType.car false "PK-AA0009" 5 =
      .error .duplicateActiveSession ∧
    atMostOneActive [sessionC4closed] :=
  ⟨(one_active_session_invariant 15 defaultPricingRules [sessionC4] [] "TN 07 AB 1234"
      VehicleType.car false "PK-AA0009" "TN 07 AB 1234" 5).1
      ⟨sessionC4, by simp, rfl, rfl⟩ (by decide),
   (one_active_session_invariant 15 defaultPricingRules [sessionC4] [] "TN 07 AB 1234"
      VehicleType.car false "PK-AA0009" "TN 07 AB 1234" 30).2.2.1 (by decide)
      [sessionC4closed] rfl⟩

/-- Helper: the closing map of `handleExit` does not change ids or plates, so the
lookup over the closed state finds the matched session again, now completed and
carrying the settlement fields. -/
theorem find?_map_close (g : Nat) (r : VehicleType → List PricingRule)
    (sessions : List ParkingSession) (tid : String) (S : ParkingSession) (now : Int)
    (hfind : sessions.find? (fun s => s.id == tid || s.vehicleNumber == tid) = some S) :
    (sessions.map (fun s =>
        if s.id = S.id then
          { s with exitTime := some now, amount := some (calculateBill g r S now).amount,
                   durationMinutes := some (calculateBill g r S now).durationMinutes,
                   status := .completed }
        else s)).find? (fun s => s.id == tid || s.vehicleNumber == tid) =
      some { S with exitTime := some now,
                    amount := some (calculateBill g r S now).amount,
                    durationMinutes := some (calculateBill g r S now).durationMinutes,
                    status := .completed } := by
  rw [List.find?_map]
  have hcomm : ((fun s : ParkingSession => s.id == tid || s.vehicleNumber == tid) ∘
      (fun s => if s.id = S.id then
          { s with exitTime := some now, amount := some (calculateBill g r S now).amount,
                   durationMinutes := some (calculateBill g r S now).durationMinutes,
                   status := .completed }
        else s)) =
      (fun s : ParkingSession => s.id == tid || s.vehicleNumber == tid) := by
    funext x
    by_cases hx : x.id = S.id
    · simp [Function.comp, hx]
    · simp [Function.comp, hx]
  rw [hcomm, hfind]
  simp

/-- C7 (amended): the first close of a session marks it completed and writes the
exit time, amount and billed minutes exactly once; a second close of the same
target is rejected — with the same generic `noActiveSession` outcome ("Active
session not found") that an unknown target receives, not a distinct
`AlreadyCompleted` — so the fields written at the first close are never
overwritten. -/
theorem handleExit_close_once (g g2 : Nat) (r r2 : VehicleType → List PricingRule)
    (sessions : List ParkingSession) (tid : String) (now now2 : Int)
    (l' : List ParkingSession) (h : handleExit g r sessions tid now = .ok l') :
    handleExit g2 r2 l' tid now2 = .error .noActiveSession ∧
    (∃ S, sessions.find? (fun s => s.id == tid || s.vehicleNumber == tid) = some S ∧
      l'.find? (fun s => s.id == tid || s.vehicleNumber == tid) =
        some { S with exitTime := some now,
                      amount := some (calculateBill g r S now).amount,
                      durationMinutes := some (calculateBill g r S now).durationMinutes,
                      status := .completed }) := by
  unfold handleExit at h
  cases hfind : sessions.find? (fun s => s.id == tid || s.vehicleNumber == tid) with
  | none =>
    simp only [hfind] at h
    exact absurd h (by simp)
  | some S =>
    simp only [hfind] at h
    by_cases hcomp : S.status = .completed
    · rw [if_pos hcomp] at h
      exact absurd h (by simp)
    · rw [if_neg hcomp] at h
      injection h with h
      subst h
      have hfind2 := find?_map_close g r sessions tid S now hfind
      refine ⟨?_, S, rfl, hfind2⟩
      unfold handleExit
      simp only [hfind2]
      simp

/-- C7 counterexample: after the concrete settlement the second close of the same
session is rejected with the generic `noActiveSession` outcome; the code never
produces the distinct `AlreadyCompleted` value that the claim names. -/
theorem handleExit_second_close_generic_error :
    handleExit 15 defaultPricingRules [sessionC4closed] "PK-AA0007" 90 =
      .error .noActiveSession ∧
    (Except.error ExitError.noActiveSession :
        Except ExitError (List ParkingSession)) ≠ .error .alreadyCompleted := by
  refine ⟨rfl, ?_⟩
  intro hcontra
  have hinj : ExitError.noActiveSession = ExitError.alreadyCompleted := by
    injection hcontra
  exact ExitError.noConfusion hinj

/-- Evaluation of `handleExit_close_once` at the concrete settled state. -/
theorem handleExit_close_once_app :
    handleExit 15 defaultPricingRules [sessionC4closed] "PK-AA0007" 60 =
      .error .noActiveSession :=
  (handleExit_close_once 15 15 defaultPricingRules defaultPricingRules [sessionC4]
      "PK-AA0007" 30 60 [sessionC4closed] rfl).1

/-- Helper: adding a calendar month moves every instant strictly later, the month or
the year strictly increasing while the time of day is preserved. -/
theorem lt_addOneMonth (d : DateTime) : DateTime.lt d (addOneMonth d) := by
  unfold addOneMonth DateTime.lt
  by_cases h : d.month + 1 > 12
  · rw [if_pos h]
    left
    show d.year < d.year + 1
    omega
  · rw [if_neg h]
    right
    refine ⟨rfl, Or.inl ?_⟩
    show d.month < d.month + 1
    omega

/-- Helper: the ternary base of `rechargePass` is the later of the stored expiry and
now, the specification maximum. -/
theorem recharge_base_eq_max (expiry now : DateTime) :
    (if DateTime.lt now expiry then expiry else now) = specMaxDate expiry now := by
  unfold specMaxDate
  by_cases h1 : DateTime.lt now expiry
  · by_cases h2 : DateTime.lt expiry now
    · exfalso
      unfold DateTime.lt at h1 h2
      omega
    · rw [if_pos h1, if_neg h2]
  · by_cases h2 : DateTime.lt expiry now
    · rw [if_neg h1, if_pos h2]
    · rw [if_neg h1, if_neg h2]
      cases expiry with
      | mk ey em ed emin =>
        cases now with
        | mk ny nm nd nmin =>
          unfold DateTime.lt at h1 h2
          simp only [DateTime.mk.injEq]
          simp only [not_or, not_and, not_lt] at h1 h2
          refine ⟨?_, ?_, ?_, ?_⟩ <;> omega

/-- C6: pass renewal adds one calendar month to the later of the stored expiry and
the renewal instant: the new expiry equals `addOneMonth` of that maximum, lands
strictly after it, and in particular an unexpired pass extends from its current
expiry while an expired pass extends from now. -/
theorem rechargePass_renewal_spec (expiry now : DateTime) :
    rechargeExpiry expiry now = addOneMonth (specMaxDate expiry now) ∧
    DateTime.lt (specMaxDate expiry now) (rechargeExpiry expiry now) ∧
    (DateTime.lt now expiry → rechargeExpiry expiry now = addOneMonth expiry) ∧
    (¬ DateTime.lt now expiry → rechargeExpiry expiry now = addOneMonth now) := by
  have hbase := recharge_base_eq_max expiry now
  refine ⟨?_, ?_, ?_, ?_⟩
  · unfold rechargeExpiry
    rw [hbase]
  · unfold rechargeExpiry
    rw [hbase]
    exact lt_addOneMonth _
  · intro h
    unfold rechargeExpiry
    rw [if_pos h]
  · intro h
    unfold rechargeExpiry
    rw [if_neg h]

/-- Evaluation of `rechargePass_renewal_spec`: an unexpired pass (expiry end of
March 2026, renewal mid January 2026) extends from its stored expiry, strictly past
the maximum; the clamped result is the end of April 2026. -/
theorem rechargePass_renewal_spec_app :
    DateTime.lt ⟨2026, 1, 15, 600⟩ ⟨2026, 3, 31, 0⟩ ∧
    rechargeExpiry ⟨2026, 3, 31, 0⟩ ⟨2026, 1, 15, 600⟩ = addOneMonth ⟨2026, 3, 31, 0⟩ ∧
    DateTime.lt (specMaxDate ⟨2026, 3, 31, 0⟩ ⟨2026, 1, 15, 600⟩)
      (rechargeExpiry ⟨2026, 3, 31, 0⟩ ⟨2026, 1, 15, 600⟩) ∧
    addOneMonth ⟨2026, 3, 31, 0⟩ = ⟨2026, 4, 30, 0⟩ :=
  ⟨by decide,
   (rechargePass_renewal_spec ⟨2026, 3, 31, 0⟩ ⟨2026, 1, 15, 600⟩).2.2.1 (by decide),
   (rechargePass_renewal_spec ⟨2026, 3, 31, 0⟩ ⟨2026, 1, 15, 600⟩).2.1,
   by decide⟩

/-- Helper: uppercasing a code unit is idempotent. -/
theorem upCode_idem (c : Nat) : upCode (upCode c) = upCode c := by
  by_cases h : 97 ≤ c ∧ c ≤ 122
  · have h1 : upCode c = c - 32 := if_pos h
    rw [h1]
    have h2 : ¬ (97 ≤ c - 32 ∧ c - 32 ≤ 122) := by omega
    exact if_neg h2
  · have h1 : upCode c = c := if_neg h
    rw [h1, h1]

/-- Helper: uppercasing never produces a whitespace code unit. -/
theorem upCode_not_space (c : Nat) (h : ¬ isJsSpace c) : ¬ isJsSpace (upCode c) := by
  unfold upCode
  by_cases hc : 97 ≤ c ∧ c ≤ 122
  · rw [if_pos hc]
    unfold isJsSpace
    omega
  · rwa [if_neg hc]

/-- Helper: cleaning distributes over concatenation. -/
theorem cleanStr_append (a b : List Nat) : cleanStr (a ++ b) = cleanStr a ++ cleanStr b := by
  unfold cleanStr
  rw [List.filter_append, List.map_append]

/-- Helper: cleaning drops a leading blank. -/
theorem cleanStr_sep (l : List Nat) : cleanStr (32 :: l) = cleanStr l := by
  unfold cleanStr
  rw [List.filter_cons]
  have h32 : (decide (¬ isJsSpace 32)) = false := by decide
  rw [h32]
  simp

/-- Helper: every code unit of a cleaned string is non-whitespace and fixed by
uppercasing. -/
theorem mem_cleanStr_fixed (s : List Nat) (c : Nat) (hc : c ∈ cleanStr s) :
    ¬ isJsSpace c ∧ upCode c = c := by
  unfold cleanStr at hc
  rcases List.mem_map.mp hc with ⟨b, hb, rfl⟩
  have hbp := (List.mem_filter.mp hb).2
  have hbs : ¬ isJsSpace b := of_decide_eq_true hbp
  exact ⟨upCode_not_space b hbs, upCode_idem b⟩

/-- Helper: cleaning is the identity on strings of non-whitespace code units fixed
by uppercasing. -/
theorem cleanStr_fixed (l : List Nat) (h : ∀ c ∈ l, ¬ isJsSpace c ∧ upCode c = c) :
    cleanStr l = l := by
  unfold cleanStr
  have hf : l.filter (fun c => decide (¬ isJsSpace c)) = l := by
    rw [List.filter_eq_self]
    intro a ha
    exact decide_eq_true (h a ha).1
  rw [hf]
  have hm : l.map upCode = l.map id := List.map_congr_left (fun a ha => (h a ha).2)
  rw [hm, List.map_id]

/-- Helper: the first two groups concatenate to the first four code units. -/
theorem take_parts2 (l : List Nat) : l.take 2 ++ (l.drop 2).take 2 = l.take 4 := by
  have h := List.take_add l 2 2
  simp only [Nat.reduceAdd] at h
  exact h.symm

/-- Helper: the first three groups concatenate to the first six code units. -/
theorem take_parts3 (l : List Nat) :
    l.take 2 ++ ((l.drop 2).take 2 ++ (l.drop 4).take 2) = l.take 6 := by
  have h1 := List.take_add l 2 4
  simp only [Nat.reduceAdd] at h1
  have h2 := List.take_add (l.drop 2) 2 2
  simp only [Nat.reduceAdd, List.drop_drop] at h2
  rw [h1, h2]

/-- Helper: the four groups concatenate to the first ten code units. -/
theorem take_parts4 (l : List Nat) :
    l.take 2 ++ ((l.drop 2).take 2 ++ ((l.drop 4).take 2 ++ (l.drop 6).take 4)) =
      l.take 10 := by
  have h1 := List.take_add l 2 8
  simp only [Nat.reduceAdd] at h1
  have h2 := List.take_add (l.drop 2) 2 6
  simp only [Nat.reduceAdd, List.drop_drop] at h2
  have h3 := List.take_add (l.drop 4) 2 4
  simp only [Nat.reduceAdd, List.drop_drop] at h3
  rw [h1, h2, h3]

/-- Helper: cleaning the grouped output recovers exactly the first ten code units of
the cleaned input. -/
theorem cleanStr_formatClean (clean : List Nat)
    (hfix : ∀ c ∈ clean, ¬ isJsSpace c ∧ upCode c = c) :
    cleanStr (formatClean clean) = clean.take 10 := by
  have htake : ∀ (j : Nat), cleanStr (clean.take j) = clean.take j := by
    intro j
    refine cleanStr_fixed _ ?_
    intro c hc
    exact hfix c (List.mem_of_mem_take hc)
  have hsub : ∀ (i j : Nat), cleanStr ((clean.drop i).take j) = (clean.drop i).take j := by
    intro i j
    refine cleanStr_fixed _ ?_
    intro c hc
    exact hfix c (List.mem_of_mem_drop (List.mem_of_mem_take hc))
  unfold formatClean groupsOf
  by_cases h0 : 0 < clean.length
  · by_cases h2 : 2 < clean.length
    · by_cases h4 : 4 < clean.length
      · by_cases h6 : 6 < clean.length
        · rw [if_pos h0, if_pos h2, if_pos h4, if_pos h6]
          show cleanStr (clean.take 2 ++ 32 :: ((clean.drop 2).take 2 ++ 32 ::
              ((clean.drop 4).take 2 ++ 32 :: (clean.drop 6).take 4))) = clean.take 10
          rw [cleanStr_append, cleanStr_sep, cleanStr_append, cleanStr_sep,
              cleanStr_append, cleanStr_sep, htake 2, hsub 2 2, hsub 4 2, hsub 6 4]
          exact take_parts4 clean
        · rw [if_pos h0, if_pos h2, if_pos h4, if_neg h6]
          show cleanStr (clean.take 2 ++ 32 :: ((clean.drop 2).take 2 ++ 32 ::
              (clean.drop 4).take 2)) = clean.take 10
          rw [cleanStr_append, cleanStr_sep, cleanStr_append, cleanStr_sep,
              htake 2, hsub 2 2, hsub 4 2, take_parts3]
          rw [List.take_of_length_le (by omega), List.take_of_length_le (by omega)]
      · rw [if_pos h0, if_pos h2, if_neg h4,
            if_neg (show ¬ 6 < clean.length by omega)]
        show cleanStr (clean.take 2 ++ 32 :: (clean.drop 2).take 2) = clean.take 10
        rw [cleanStr_append, cleanStr_sep, htake 2, hsub 2 2, take_parts2]
        rw [List.take_of_length_le (by omega), List.take_of_length_le (by omega)]
    · rw [if_pos h0, if_neg h2, if_neg (show ¬ 4 < clean.length by omega),
          if_neg (show ¬ 6 < clean.length by omega)]
      show cleanStr (clean.take 2) = clean.take 10
      rw [htake 2, List.take_of_length_le (by omega), List.take_of_length_le (by omega)]
  · have hnil : clean = [] := List.length_eq_zero.mp (by omega)
    subst hnil
    rfl

/-- Helper: grouping only reads the first ten code units. -/
theorem groupsOf_take10 (l : List Nat) : groupsOf (l.take 10) = groupsOf l := by
  unfold groupsOf
  have g1 : (l.take 10).take 2 = l.take 2 := by
    simp [List.take_take]
  have g2 : ((l.take 10).drop 2).take 2 = (l.drop 2).take 2 := by
    simp [List.drop_take, List.take_take]
  have g3 : ((l.take 10).drop 4).take 2 = (l.drop 4).take 2 := by
    simp [List.drop_take, List.take_take]
  have g4 : ((l.take 10).drop 6).take 4 = (l.drop 6).take 4 := by
    simp [List.drop_take, List.take_take]
  rw [g1, g2, g3, g4]
  have hlen : (l.take 10).length = min 10 l.length := by simp
  rw [hlen]
  simp only [lt_min_iff]
  norm_num

/-- Helper: every code unit of the joined groups comes from a group or is the
separating blank. -/
theorem mem_joinSp (gs : List (List Nat)) (P : Nat → Prop)
    (h : ∀ gp ∈ gs, ∀ c ∈ gp, P c) : ∀ c ∈ joinSp gs, P c ∨ c = 32 := by
  induction gs with
  | nil =>
    intro c hc
    simp [joinSp] at hc
  | cons gp gs ih =>
    cases gs with
    | nil =>
      intro c hc
      exact Or.inl (h gp (by simp) c hc)
    | cons gp2 gs2 =>
      intro c hc
      rw [show joinSp (gp :: gp2 :: gs2) = gp ++ 32 :: joinSp (gp2 :: gs2) from rfl] at hc
      rcases List.mem_append.mp hc with h1 | h2
      · exact Or.inl (h gp (by simp) c h1)
      · rcases List.mem_cons.mp h2 with h3 | h4
        · exact Or.inr h3
        · exact ih (fun g hg => h g (List.mem_cons_of_mem _ hg)) c h4

/-- Helper: every code unit of a group comes from the cleaned input. -/
theorem mem_groupsOf (clean : List Nat) (gp : List Nat) (hgp : gp ∈ groupsOf clean) :
    ∀ c ∈ gp, c ∈ clean := by
  have hone : ∀ (P : Prop) [inst : Decidable P] (x : List Nat),
      gp ∈ (if P then [x] else ([] : List (List Nat))) → gp = x := by
    intro P inst x hmem
    split at hmem
    · simpa using hmem
    · simp at hmem
  unfold groupsOf at hgp
  rcases List.mem_append.mp hgp with habc | h4
  · rcases List.mem_append.mp habc with hab | h3
    · rcases List.mem_append.mp hab with h1 | h2
      · have hq := hone _ _ h1
        subst hq
        intro c hc
        exact List.mem_of_mem_take hc
      · have hq := hone _ _ h2
        subst hq
        intro c hc
        exact List.mem_of_mem_drop (List.mem_of_mem_take hc)
    · have hq := hone _ _ h3
      subst hq
      intro c hc
      exact List.mem_of_mem_drop (List.mem_of_mem_take hc)
  · have hq := hone _ _ h4
    subst hq
    intro c hc
    exact List.mem_of_mem_drop (List.mem_of_mem_take hc)

/-- C10: the plate normalizer is idempotent; its content is exactly the uppercased
first ten non-whitespace code units of the input (everything after them is dropped);
every code unit of the output is fixed by uppercasing; and with more than six
cleaned code units the output is grouped 2-2-2-4 with single blanks between the
groups. -/
theorem formatVehicleNumber_spec (s : List Nat) :
    formatVehicleNumber (formatVehicleNumber s) = formatVehicleNumber s ∧
    cleanStr (formatVehicleNumber s) = (cleanStr s).take 10 ∧
    (∀ c ∈ formatVehicleNumber s, upCode c = c) ∧
    (6 < (cleanStr s).length →
      formatVehicleNumber s =
        (cleanStr s).take 2 ++ 32 :: (((cleanStr s).drop 2).take 2 ++ 32 ::
          (((cleanStr s).drop 4).take 2 ++ 32 :: ((cleanStr s).drop 6).take 4))) := by
  have hfix : ∀ c ∈ cleanStr s, ¬ isJsSpace c ∧ upCode c = c :=
    fun c hc => mem_cleanStr_fixed s c hc
  have hclean : cleanStr (formatVehicleNumber s) = (cleanStr s).take 10 :=
    cleanStr_formatClean (cleanStr s) hfix
  refine ⟨?_, hclean, ?_, ?_⟩
  · show formatClean (cleanStr (formatVehicleNumber s)) = formatVehicleNumber s
    rw [hclean]
    unfold formatClean
    rw [groupsOf_take10]
    rfl
  · intro c hc
    rcases mem_joinSp (groupsOf (cleanStr s)) (fun x => x ∈ cleanStr s)
        (fun gp hgp => mem_groupsOf (cleanStr s) gp hgp) c hc with h | h
    · exact (mem_cleanStr_fixed s c h).2
    · subst h
      rfl
  · intro h6
    unfold formatVehicleNumber formatClean groupsOf
    rw [if_pos (show 0 < (cleanStr s).length by omega),
        if_pos (show 2 < (cleanStr s).length by omega),
        if_pos (show 4 < (cleanStr s).length by omega), if_pos h6]
    rfl

/-- Evaluation of `formatVehicleNumber_spec` on the code units of "tn07ab1234": the
cleaned length exceeds six and the output is the grouped uppercase plate
"TN 07 AB 1234". -/
theorem formatVehicleNumber_spec_app :
    6 < (cleanStr [116, 110, 48, 55, 97, 98, 49, 50, 51, 52]).length ∧
    formatVehicleNumber [116, 110, 48, 55, 97, 98, 49, 50, 51, 52] =
      [84, 78, 32, 48, 55, 32, 65, 66, 32, 49, 50, 51, 52] :=
  ⟨by decide,
   ((formatVehicleNumber_spec [116, 110, 48, 55, 97, 98, 49, 50, 51, 52]).2.2.2
     (by decide)).trans (by decide)⟩

end Parking
